import Mathlib

/-!
Verification of the color-conversion engine of the `EBIAC` repository
(`turkish_webcolors.py`) against its natural-language specification.

The Python module is shallowly embedded below.  Strings are modelled as
Lean `String` (a structure over `List Char`, i.e. a sequence of Unicode
scalar values, which matches Python 3 `str`).  Python dictionaries built
from literals with duplicate keys are modelled by `dictOfPairs`, which
reproduces CPython semantics exactly: insertion order is the order of
first occurrence of each key, and the stored value is the last one
assigned to that key.  A function that can raise `ValueError` is
modelled as returning an `Option`, with `none` for the raised error.
-/

namespace TW

/-! ## Character helpers -/

/-- Membership in Python's `string.hexdigits` (`0-9`, `a-f`, `A-F`),
stated on the Unicode scalar value so that arithmetic reasoning is easy. -/
def isAsciiHexDigit (c : Char) : Bool :=
  (48 ≤ c.toNat && c.toNat ≤ 57) || (97 ≤ c.toNat && c.toNat ≤ 102) ||
    (65 ≤ c.toNat && c.toNat ≤ 70)

/-- Lowercase-or-digit hex digits (`0-9`, `a-f`); used to state claims about
normalized hexadecimal values. -/
def isLowerHexDigit (c : Char) : Bool :=
  (48 ≤ c.toNat && c.toNat ≤ 57) || (97 ≤ c.toNat && c.toNat ≤ 102)

/-- Numeric value of a hexadecimal digit character, `0` on other characters.
Models `int(c, 16)` for single hex digits (the callers below only apply it
under a hex-digit guard). -/
def hexDigitVal (c : Char) : Nat :=
  if 48 ≤ c.toNat ∧ c.toNat ≤ 57 then c.toNat - 48
  else if 97 ≤ c.toNat ∧ c.toNat ≤ 102 then c.toNat - 87
  else if 65 ≤ c.toNat ∧ c.toNat ≤ 70 then c.toNat - 55
  else 0

/-- Models Python `int(s, 16)` on strings of hexadecimal digits. -/
def parseHexNat (cs : List Char) : Nat :=
  cs.foldl (fun a c => 16 * a + hexDigitVal c) 0

/-- One lowercase hexadecimal digit character, as produced by Python's
`x` format conversion. -/
def toHexDigit (n : Nat) : Char :=
  if n < 10 then Char.ofNat (48 + n) else Char.ofNat (87 + n)

/-- Fuel-indexed helper for `natHex`; the fuel only needs to exceed the
number of digits, and `natHex` passes `n` itself. -/
def natHexAux : Nat → Nat → List Char
  | 0, n => [toHexDigit n]
  | fuel + 1, n =>
    if n < 16 then [toHexDigit n]
    else natHexAux fuel (n / 16) ++ [toHexDigit (n % 16)]

/-- Lowercase hexadecimal digits of `n`, most significant first; the digit
list Python's `format(n, 'x')` produces for a nonnegative integer. -/
def natHex (n : Nat) : List Char :=
  natHexAux n n

/-- Models Python's `'{:02x}'.format(n)` for a nonnegative integer:
lowercase hex, zero-padded on the left to width 2. -/
def hex02 (n : Nat) : List Char :=
  List.replicate (2 - (natHex n).length) '0' ++ natHex n

/-- ASCII-only lowercasing of one character (the `A`-`Z` range). -/
def asciiLowerChar (c : Char) : Char :=
  if 65 ≤ c.toNat ∧ c.toNat ≤ 90 then Char.ofNat (c.toNat + 32) else c

/-- Models Python `str.lower` on one character, restricted to the code
points occurring in this repository's tables and inputs: ASCII plus the
Turkish letters `Ç Ğ İ Ö Ş Ü`.  Python maps `'İ'` (U+0130) to the
two-character string `'i'` followed by U+0307, hence the list result. -/
def pyLowerCharL (c : Char) : List Char :=
  if 65 ≤ c.toNat ∧ c.toNat ≤ 90 then [Char.ofNat (c.toNat + 32)]
  else if c = 'Ç' then ['ç']
  else if c = 'Ğ' then ['ğ']
  else if c = 'İ' then ['i', Char.ofNat 775]
  else if c = 'Ö' then ['ö']
  else if c = 'Ş' then ['ş']
  else if c = 'Ü' then ['ü']
  else [c]

/-- Models Python `str.lower`, see `pyLowerCharL`. -/
def pyLower (s : String) : String :=
  String.mk (s.data.flatMap pyLowerCharL)

/-- Models Python `str.upper` on one character, restricted to the same
alphabet.  Note that the dotless `'ı'` (U+0131) uppercases to the plain
ASCII `'I'`: Python's default case mapping is not Turkish-aware. -/
def pyUpperCharL (c : Char) : List Char :=
  if 97 ≤ c.toNat ∧ c.toNat ≤ 122 then [Char.ofNat (c.toNat - 32)]
  else if c = 'ç' then ['Ç']
  else if c = 'ğ' then ['Ğ']
  else if c = 'ı' then ['I']
  else if c = 'ö' then ['Ö']
  else if c = 'ş' then ['Ş']
  else if c = 'ü' then ['Ü']
  else [c]

/-- Models Python `str.upper`, see `pyUpperCharL`. -/
def pyUpper (s : String) : String :=
  String.mk (s.data.flatMap pyUpperCharL)

/-- Models Python `str.strip()` with no argument: remove leading and
trailing whitespace. -/
def pyStrip (cs : List Char) : List Char :=
  ((cs.dropWhile Char.isWhitespace).reverse.dropWhile Char.isWhitespace).reverse

/-! ## Python dictionaries

A dictionary is an association list with unique keys kept in insertion
order.  `dictUpdate` is CPython assignment `d[k] = v`: an existing key
keeps its position and gets the new value, a new key is appended. -/

/-- CPython `d[k] = v` on an insertion-ordered association list: an
existing key keeps its position and receives the new value, a new key is
appended at the end. -/
def dictUpdate : List (String × String) → String → String →
    List (String × String)
  | [], k, v => [(k, v)]
  | p :: d, k, v =>
    if p.1 == k then (k, v) :: d else p :: dictUpdate d k v

/-- The dictionary a CPython dict literal with the given (possibly
duplicated) keys denotes. -/
def dictOfPairs (ps : List (String × String)) : List (String × String) :=
  ps.foldl (fun d p => dictUpdate d p.1 p.2) []

/-- CPython `d.get(k)`. -/
def dictGet (d : List (String × String)) (k : String) : Option String :=
  (d.find? (fun p => p.1 == k)).map (fun p => p.2)

/-- The value the key `k` ends up with after inserting all of `ps` into a
dictionary: the second component of the last pair of `ps` whose key is
`k`.  `dictGet_dictOfPairs` below proves this is what `dictOfPairs`
yields, which lets concrete lookups evaluate by one linear scan. -/
def lastVal (ps : List (String × String)) (k : String) : Option String :=
  ((ps.filter (fun p => p.1 == k)).getLast?).map (fun p => p.2)

/-- Models the module's `_reversedict`: value/key swap, with CPython
iteration order and last-one-wins on duplicate values. -/
def reversedict (d : List (String × String)) : List (String × String) :=
  dictOfPairs (d.map (fun p => (p.2, p.1)))

/-! ## The name tables (transcribed from the source, in literal order,
duplicate keys included) -/

/-- The key/value pairs of the `HTML4_NAMES_TO_HEX` dict literal. -/
def HTML4_PAIRS : List (String × String) := [
  ("camgöbeği", "#00ffff"), ("siyahı", "#000000"), ("mavisi", "#0000ff"),
  ("fuşyası", "#ff00ff"), ("yeşili", "#008000"), ("grisi", "#808080"),
  ("lime", "#00ff00"), ("maroon", "#800000"), ("navy", "#000080"),
  ("olive", "#808000"), ("moru", "#800080"), ("kırmızısı", "#ff0000"),
  ("gümüşü", "#c0c0c0"), ("teal", "#008080"), ("beyazı", "#ffffff"),
  ("sarısı", "#ffff00")]

def HTML4_NAMES_TO_HEX : List (String × String) := dictOfPairs HTML4_PAIRS

/-- CSS 2 used the same list as HTML 4. -/
def CSS2_NAMES_TO_HEX : List (String × String) := HTML4_NAMES_TO_HEX

/-- CSS 2.1 added orange: `dict(HTML4_NAMES_TO_HEX, orange='#ffa500')`. -/
def CSS21_NAMES_TO_HEX : List (String × String) :=
  dictUpdate HTML4_NAMES_TO_HEX "orange" "#ffa500"

/-- The key/value pairs of the `CSS3_NAMES_TO_HEX` dict literal, in source
order.  Several keys occur more than once (CPython keeps the last value),
and the `celadonu` entry carries the value `#acelaf`, whose fifth digit is
the letter ell, not a hexadecimal digit. -/
def CSS3_PAIRS : List (String × String) := [
  ("camgöbeği", "#f0f8ff"), ("antik beyazı", "#faebd7"),
  ("camgöbeği", "#00ffff"), ("akuamarini", "#7fffd4"),
  ("azuresi", "#f0ffff"), ("beji", "#f5f5dc"), ("bisküvisi", "#ffe4c4"),
  ("siyahı", "#000000"), ("bademi", "#ffebcd"), ("mavisi", "#0000ff"),
  ("bondi mavisi", "#0095b6"), ("yeşimi", "#00a86b"), ("ecrusu", "#cdb091"),
  ("mavieftalunu", "#8a2be2"), ("kahverengisi", "#a52a2a"),
  ("odunu", "#deb887"), ("aday mavisi", "#5f9ea0"),
  ("cix yeşili", "#7fff00"), ("çikolatası", "#d2691e"),
  ("mercanı", "#ff7f50"), ("galibardası", "#ff0090"),
  ("peygamber çiçeği", "#6495ed"), ("açık sarısı", "#fff8dc"),
  ("kızılı", "#dc143c"), ("siyanı", "#00ffff"), ("koyu mavisi", "#00008b"),
  ("siyanı", "#008b8b"), ("altını", "#b8860b"), ("grisi", "#a9a9a9"),
  ("grisi", "#a9a9a9"), ("yeşili", "#006400"), ("hakisi", "#bdb76b"),
  ("magentası", "#8b008b"), ("zeytini", "#556b2f"),
  ("portakalı", "#ff8c00"), ("orkidesi", "#9932cc"), ("bordosu", "#8b0000"),
  ("somonu", "#e9967a"), ("yosunu", "#8fbc8f"),
  ("arduvazi mavisi", "#483d8b"), ("arduvazi grisi", "#2f4f4f"),
  ("arduvazi grisi", "#2f4f4f"), ("arduvazi turkuazı", "#00ced1"),
  ("eflatunu", "#9400d3"), ("derin pembesi", "#ff1493"),
  ("derin gök mavisi", "#00bfff"), ("loş grisi", "#696969"),
  ("mavisi", "#1e90ff"), ("tuğlası", "#b22222"),
  ("çiçeği beyazı", "#fffaf0"), ("ormanı yeşili", "#228b22"),
  ("fuşyası", "#ff00ff"), ("garip grisi", "#dcdcdc"),
  ("hayalet beyazı", "#f8f8ff"), ("altını", "#ffd700"),
  ("altını", "#daa520"), ("grisi", "#808080"), ("yeşili", "#008000"),
  ("yeşimsarısı", "#adff2f"), ("balkavunu", "#f0fff0"),
  ("ateşli pembesi", "#ff69b4"), ("hint kırmızısı", "#cd5c5c"),
  ("fildişisi", "#fffff0"), ("fok kahvesi", "#321414"),
  ("hakisi", "#f0e68c"), ("lavantası", "#e6e6fa"), ("lavantası", "#fff0f5"),
  ("safiri", "#082567"), ("otu yeşili", "#7cfc00"), ("limonu", "#fffacd"),
  ("mavisi", "#add8e6"), ("açık mercanı", "#f08080"),
  ("siyanı", "#e0ffff"), ("altını", "#fafad2"), ("grisi", "#d3d3d3"),
  ("açık yeşili", "#90ee90"), ("açık pembesi", "#ffb6c1"),
  ("açık somonu", "#ffa07a"), ("açık deniz yeşili", "#20b2aa"),
  ("açık gök mavisi", "#87cefa"), ("açık arduvazi grisi", "#778899"),
  ("açık çelik mavisi", "#b0c4de"), ("açık sarısı", "#ffffe0"),
  ("misket limonu", "#00ff00"), ("yeşil limonu", "#32cd32"),
  ("ipeği", "#faf0e6"), ("magentası", "#ff00ff"), ("maronu", "#800000"),
  ("gece mavisi", "#191970"), ("nanesi", "#f5fffa"),
  ("buzlu gülü", "#ffe4e1"), ("mokaseni", "#ffe4b5"),
  ("navajosu", "#ffdead"), ("navisi", "#000080"),
  ("eski ipliği", "#fdf5e6"), ("kuşkonmazı", "#465945"),
  ("zeytini", "#808000"), ("kabağı", "#ff7518"), ("havucu", "#ed9121"),
  ("kehribarı", "#ffbf00"), ("kobaltı", "#0047ab"),
  ("köselesi", "#f0dc82"), ("kremrengi", "#fffdd0"), ("çiviti", "#4b0082"),
  ("malakiti", "#0bda51"), ("zeytinyağı", "#6b8e23"),
  ("turuncusu", "#ffa500"), ("ateşi", "#ff4d00"),
  ("yavruağzı", "#ff7f00"), ("orkidesi", "#da70d6"),
  ("papayası", "#ffefd5"), ("şeftalisi", "#ffdab9"), ("perusu", "#cd853f"),
  ("pembesi", "#ffc0cb"), ("eriği", "#dda0dd"), ("tozmavisi", "#b0e0e6"),
  ("moru", "#800080"), ("kırmızısı", "#ff0000"),
  ("kızılkahvesi", "#bc8f8f"), ("asil mavisi", "#4169e1"),
  ("eğer kahvesi", "#8b4513"), ("somonu", "#fa8072"), ("kumulu", "#f4a460"),
  ("deniz yeşili", "#2e8b57"), ("denizkabuğu", "#fff5ee"),
  ("toprağı", "#a0522d"), ("gümüşü", "#c0c0c0"),
  ("gök mavisi", "#87ceeb"), ("kayrak mavisi", "#6a5acd"),
  ("kayrak grisi", "#708090"), ("karbeyazı", "#fffafa"),
  ("bahar yeşili", "#00ff7f"), ("çelik mavisi", "#4682b4"),
  ("bronzu", "#d2b48c"), ("teal", "#008080"), ("thistle", "#d8bfd8"),
  ("domatesi", "#ff6347"), ("turkuazı", "#40e0d0"),
  ("eflatunu", "#ee82ee"), ("buğdayı", "#f5deb3"), ("beyazı", "#ffffff"),
  ("dumanbeyazı", "#f5f5f5"), ("sarısı", "#ffff00"),
  ("sarımtırakyeşili", "#9acd32"), ("alizarı", "#e32636"),
  ("arseniği", "#3b444b"), ("celadonu", "#acelaf"),
  ("burgonyası", "#900020"), ("bordosu", "#800000"),
  ("devedikeni", "#d8bfd8")]

def CSS3_NAMES_TO_HEX : List (String × String) := dictOfPairs CSS3_PAIRS

/-- The finished CSS3 dictionary: `CSS3_PAIRS` with duplicate keys merged
by CPython's rules (position of first occurrence, value of the last).
The theorem `css3_names_snapshot` below checks this list against
`dictOfPairs CSS3_PAIRS`; having it as a literal lets every later lookup
evaluate by a linear scan instead of re-running the construction. -/
def CSS3_FINAL : List (String × String) :=
    [("camgöbeği", "#00ffff"), ("antik beyazı", "#faebd7"),
    ("akuamarini", "#7fffd4"), ("azuresi", "#f0ffff"), ("beji", "#f5f5dc"),
    ("bisküvisi", "#ffe4c4"), ("siyahı", "#000000"), ("bademi", "#ffebcd"),
    ("mavisi", "#add8e6"), ("bondi mavisi", "#0095b6"),
    ("yeşimi", "#00a86b"), ("ecrusu", "#cdb091"),
    ("mavieftalunu", "#8a2be2"), ("kahverengisi", "#a52a2a"),
    ("odunu", "#deb887"), ("aday mavisi", "#5f9ea0"),
    ("cix yeşili", "#7fff00"), ("çikolatası", "#d2691e"),
    ("mercanı", "#ff7f50"), ("galibardası", "#ff0090"),
    ("peygamber çiçeği", "#6495ed"), ("açık sarısı", "#ffffe0"),
    ("kızılı", "#dc143c"), ("siyanı", "#e0ffff"),
    ("koyu mavisi", "#00008b"), ("altını", "#fafad2"), ("grisi", "#d3d3d3"),
    ("yeşili", "#008000"), ("hakisi", "#f0e68c"), ("magentası", "#ff00ff"),
    ("zeytini", "#808000"), ("portakalı", "#ff8c00"),
    ("orkidesi", "#da70d6"), ("bordosu", "#800000"), ("somonu", "#fa8072"),
    ("yosunu", "#8fbc8f"), ("arduvazi mavisi", "#483d8b"),
    ("arduvazi grisi", "#2f4f4f"), ("arduvazi turkuazı", "#00ced1"),
    ("eflatunu", "#ee82ee"), ("derin pembesi", "#ff1493"),
    ("derin gök mavisi", "#00bfff"), ("loş grisi", "#696969"),
    ("tuğlası", "#b22222"), ("çiçeği beyazı", "#fffaf0"),
    ("ormanı yeşili", "#228b22"), ("fuşyası", "#ff00ff"),
    ("garip grisi", "#dcdcdc"), ("hayalet beyazı", "#f8f8ff"),
    ("yeşimsarısı", "#adff2f"), ("balkavunu", "#f0fff0"),
    ("ateşli pembesi", "#ff69b4"), ("hint kırmızısı", "#cd5c5c"),
    ("fildişisi", "#fffff0"), ("fok kahvesi", "#321414"),
    ("lavantası", "#fff0f5"), ("safiri", "#082567"),
    ("otu yeşili", "#7cfc00"), ("limonu", "#fffacd"),
    ("açık mercanı", "#f08080"), ("açık yeşili", "#90ee90"),
    ("açık pembesi", "#ffb6c1"), ("açık somonu", "#ffa07a"),
    ("açık deniz yeşili", "#20b2aa"), ("açık gök mavisi", "#87cefa"),
    ("açık arduvazi grisi", "#778899"), ("açık çelik mavisi", "#b0c4de"),
    ("misket limonu", "#00ff00"), ("yeşil limonu", "#32cd32"),
    ("ipeği", "#faf0e6"), ("maronu", "#800000"), ("gece mavisi", "#191970"),
    ("nanesi", "#f5fffa"), ("buzlu gülü", "#ffe4e1"),
    ("mokaseni", "#ffe4b5"), ("navajosu", "#ffdead"), ("navisi", "#000080"),
    ("eski ipliği", "#fdf5e6"), ("kuşkonmazı", "#465945"),
    ("kabağı", "#ff7518"), ("havucu", "#ed9121"), ("kehribarı", "#ffbf00"),
    ("kobaltı", "#0047ab"), ("köselesi", "#f0dc82"),
    ("kremrengi", "#fffdd0"), ("çiviti", "#4b0082"),
    ("malakiti", "#0bda51"), ("zeytinyağı", "#6b8e23"),
    ("turuncusu", "#ffa500"), ("ateşi", "#ff4d00"),
    ("yavruağzı", "#ff7f00"), ("papayası", "#ffefd5"),
    ("şeftalisi", "#ffdab9"), ("perusu", "#cd853f"), ("pembesi", "#ffc0cb"),
    ("eriği", "#dda0dd"), ("tozmavisi", "#b0e0e6"), ("moru", "#800080"),
    ("kırmızısı", "#ff0000"), ("kızılkahvesi", "#bc8f8f"),
    ("asil mavisi", "#4169e1"), ("eğer kahvesi", "#8b4513"),
    ("kumulu", "#f4a460"), ("deniz yeşili", "#2e8b57"),
    ("denizkabuğu", "#fff5ee"), ("toprağı", "#a0522d"),
    ("gümüşü", "#c0c0c0"), ("gök mavisi", "#87ceeb"),
    ("kayrak mavisi", "#6a5acd"), ("kayrak grisi", "#708090"),
    ("karbeyazı", "#fffafa"), ("bahar yeşili", "#00ff7f"),
    ("çelik mavisi", "#4682b4"), ("bronzu", "#d2b48c"), ("teal", "#008080"),
    ("thistle", "#d8bfd8"), ("domatesi", "#ff6347"),
    ("turkuazı", "#40e0d0"), ("buğdayı", "#f5deb3"), ("beyazı", "#ffffff"),
    ("dumanbeyazı", "#f5f5f5"), ("sarısı", "#ffff00"),
    ("sarımtırakyeşili", "#9acd32"), ("alizarı", "#e32636"),
    ("arseniği", "#3b444b"), ("celadonu", "#acelaf"),
    ("burgonyası", "#900020"), ("devedikeni", "#d8bfd8")]

def HTML4_HEX_TO_NAMES : List (String × String) :=
  reversedict HTML4_NAMES_TO_HEX

def CSS2_HEX_TO_NAMES : List (String × String) := HTML4_HEX_TO_NAMES

def CSS21_HEX_TO_NAMES : List (String × String) :=
  reversedict CSS21_NAMES_TO_HEX

/-- Reverse table for CSS3: the module's `_reversedict` result followed by
its seven hard-coded gray-spelling overrides, applied in source order. -/
def CSS3_HEX_TO_NAMES : List (String × String) :=
  dictUpdate (dictUpdate (dictUpdate (dictUpdate (dictUpdate (dictUpdate
    (dictUpdate (reversedict CSS3_NAMES_TO_HEX)
      "#a9a9a9" "darkgray")
      "#2f4f4f" "darkslategray")
      "#696969" "dimgray")
      "#808080" "gray")
      "#d3d3d3" "lightgray")
      "#778899" "lightslategray")
      "#708090" "slategray"

/-! ## Specification dialects -/

inductive Spec where
  | html4 : Spec
  | css2 : Spec
  | css21 : Spec
  | css3 : Spec
deriving DecidableEq

/-- The name-to-hex table the module selects for a dialect. -/
def namesToHex : Spec → List (String × String)
  | Spec.html4 => HTML4_NAMES_TO_HEX
  | Spec.css2 => CSS2_NAMES_TO_HEX
  | Spec.css21 => CSS21_NAMES_TO_HEX
  | Spec.css3 => CSS3_NAMES_TO_HEX

/-- The hex-to-name table the module selects for a dialect. -/
def hexToNames : Spec → List (String × String)
  | Spec.html4 => HTML4_HEX_TO_NAMES
  | Spec.css2 => CSS2_HEX_TO_NAMES
  | Spec.css21 => CSS21_HEX_TO_NAMES
  | Spec.css3 => CSS3_HEX_TO_NAMES

/-! ## Hex normalization -/

/-- Models `HEX_COLOR_RE.match(s)` for the pattern
`^#([a-fA-F0-9]{3}|[a-fA-F0-9]{6})$`, returning the captured group.
Python's `$` matches at the end of the string or just before a newline
that is the string's final character, so a single trailing newline after
the digits is accepted as well. -/
def matchHexColor (s : String) : Option (List Char) :=
  match s.data with
  | [] => none
  | c :: t =>
    if c = '#' then
      if (t.length == 3 || t.length == 6) && t.all isAsciiHexDigit then
        some t
      else if t.getLast? == some '\n' &&
          ((t.dropLast.length == 3 || t.dropLast.length == 6) &&
            t.dropLast.all isAsciiHexDigit) then
        some t.dropLast
      else none
    else none

/-- Models `normalize_hex`: 3-digit groups are expanded by doubling each
digit, then the digits are lowercased behind a `#`.  `none` is the raised
`ValueError`. -/
def normalize_hex (s : String) : Option String :=
  (matchHexColor s).map (fun g =>
    let digs := if g.length == 3 then g.flatMap (fun c => [c, c]) else g
    String.mk ('#' :: (pyLower (String.mk digs)).data))

/-! ## Integer and percent triplet normalization -/

/-- Models `_normalize_integer_rgb`: clip into 0..255. -/
def normalizeIntegerRgb (v : Int) : Int :=
  if v < 0 then 0 else if v > 255 then 255 else v

/-- Models `normalize_integer_triplet`. -/
def normalize_integer_triplet (t : Int × Int × Int) : Int × Int × Int :=
  (normalizeIntegerRgb t.1, normalizeIntegerRgb t.2.1,
    normalizeIntegerRgb t.2.2)

/-- Everything before the first `%`, i.e. Python `s.split('%')[0]`. -/
def percentHead (s : String) : List Char :=
  s.data.takeWhile (fun c => !(c == '%'))

/-- Helper for `digitRunOK`: accepts the rest of a digit run after at
least one digit has been read; an underscore must be followed by a digit. -/
def digitRunAux : List Char → Bool
  | [] => true
  | '_' :: [] => false
  | '_' :: c :: cs => c.isDigit && digitRunAux cs
  | c :: cs => c.isDigit && digitRunAux cs

/-- A nonempty ASCII digit run with optional single underscores between
digits, as Python's number grammar admits. -/
def digitRunOK : List Char → Bool
  | [] => false
  | c :: cs => c.isDigit && digitRunAux cs

/-- Numeric value of a digit run (underscores skipped). -/
def digitRunVal (cs : List Char) : Nat :=
  (cs.filter (fun c => !(c == '_'))).foldl
    (fun a c => 10 * a + (c.toNat - 48)) 0

/-- Models Python `int(s)` (base 10): surrounding whitespace, an optional
sign, ASCII digits with optional single underscores between digits.
Non-ASCII decimal digits are outside the modelled alphabet. -/
def pyParseInt (s : List Char) : Option Int :=
  match pyStrip s with
  | '+' :: r => if digitRunOK r then some ((digitRunVal r : Nat) : Int) else none
  | '-' :: r => if digitRunOK r then some (-((digitRunVal r : Nat) : Int)) else none
  | r => if digitRunOK r then some ((digitRunVal r : Nat) : Int) else none

/-- Splits at the first `e` or `E`, for the exponent part of a float
literal. -/
def splitExpo (cs : List Char) : List Char × Option (List Char) :=
  match cs.findIdx? (fun c => c == 'e' || c == 'E') with
  | none => (cs, none)
  | some i => (cs.take i, some (cs.drop (i + 1)))

/-- Splits at the first `.`. -/
def splitDot (cs : List Char) : List Char × Option (List Char) :=
  match cs.findIdx? (fun c => c == '.') with
  | none => (cs, none)
  | some i => (cs.take i, some (cs.drop (i + 1)))

/-- An optionally-empty digit run (used for the parts around a decimal
point, where one side may be missing). -/
def digitRunOpt (cs : List Char) : Bool :=
  cs.isEmpty || digitRunOK cs

/-- Signed digit run, for exponents. -/
def signedDigitRun (cs : List Char) : Bool :=
  match cs with
  | '+' :: r => digitRunOK r
  | '-' :: r => digitRunOK r
  | r => digitRunOK r

/-- Value of a signed digit run as an integer. -/
def signedDigitRunVal (cs : List Char) : Int :=
  match cs with
  | '+' :: r => ((digitRunVal r : Nat) : Int)
  | '-' :: r => -((digitRunVal r : Nat) : Int)
  | r => ((digitRunVal r : Nat) : Int)

/-- Exact rational value of a decimal float literal broken into sign,
integral digits, fractional digits and exponent, built with `mkRat` so
that it evaluates by plain integer arithmetic. -/
def pyFloatValQ (neg : Bool) (intDigits fracDigits : List Char)
    (e : Int) : ℚ :=
  let fz := (fracDigits.filter (fun c => !(c == '_'))).length
  let mag : Int :=
    ((digitRunVal intDigits * 10 ^ fz + digitRunVal fracDigits : Nat) : Int)
  let mant : Int := if neg then -mag else mag
  if 0 ≤ e then mkRat (mant * (10 : Int) ^ e.toNat) ((10 : Nat) ^ fz)
  else mkRat mant ((10 : Nat) ^ fz * (10 : Nat) ^ (-e).toNat)

/-- Models Python `float(s)` on strings containing a `.`: the decimal
value is computed exactly as a rational.  (The callers below never
compare the resulting value against anything closer than 1/100 to an
IEEE-754 rounding boundary, and no theorem in this file depends on the
formatted text of a float result, so exact rational arithmetic agrees
with the double-precision source on everything proved here.  The `inf`
and `nan` spellings contain no `.` and therefore cannot reach the
float branch of `_normalize_percent_rgb`.) -/
def pyParseFloat (s : List Char) : Option ℚ :=
  let t := pyStrip s
  let neg : Bool := match t with
    | '-' :: _ => true
    | _ => false
  let body := match t with
    | '+' :: r => r
    | '-' :: r => r
    | r => r
  let (mant, expo) := splitExpo body
  let (ip, fpOpt) := splitDot mant
  let expOK := match expo with
    | none => true
    | some e => signedDigitRun e
  let expVal : Int := match expo with
    | none => 0
    | some e => signedDigitRunVal e
  match fpOpt with
  | none =>
    if digitRunOK ip && expOK then
      some (pyFloatValQ neg ip [] expVal)
    else none
  | some fp =>
    if digitRunOpt ip && digitRunOpt fp && !(ip.isEmpty && fp.isEmpty) &&
        expOK then
      some (pyFloatValQ neg ip fp expVal)
    else none

/-- Fuel-indexed helper for `natDecDigits`. -/
def natDecDigitsAux : Nat → Nat → List Char
  | 0, n => [Char.ofNat (48 + n)]
  | fuel + 1, n =>
    if n < 10 then [Char.ofNat (48 + n)]
    else natDecDigitsAux fuel (n / 10) ++ [Char.ofNat (48 + n % 10)]

/-- Decimal digit characters of a natural number, most significant first. -/
def natDecDigits (n : Nat) : List Char :=
  natDecDigitsAux n n

/-- Auxiliary digit search for `decimalRepr` on a nonnegative value
`n / den` in lowest terms: `k` counts decimal shifts, and the first `k`
making `n * 10 ^ k` divisible by `den` gives the (minimal) digit string. -/
def decimalReprAux (fuel : Nat) (n den : Nat) (k : Nat) : String :=
  match fuel with
  | 0 => ""
  | fuel + 1 =>
    if n * 10 ^ k % den = 0 then
      let m := n * 10 ^ k / den
      let tenk := (10 : Nat) ^ k
      toString (m / tenk) ++ "." ++
        String.mk (List.replicate (k - (natDecDigits (m % tenk)).length) '0'
          ++ natDecDigits (m % tenk))
    else decimalReprAux fuel n den (k + 1)

/-- Formats a nonnegative rational with terminating decimal expansion the
way Python's `str` prints the corresponding float: integral values get a
trailing `.0`, others print their (minimal, since the shift count is the
first that clears the denominator) decimal digits.  The fuel bounds the
number of fractional digits; parsed percent values terminate inside it. -/
def decimalRepr (fuel : Nat) (q : ℚ) : String :=
  if q.den = 1 then toString q.num ++ ".0"
  else decimalReprAux fuel q.num.toNat q.den 1

/-- Models `_normalize_percent_rgb`.  The part of the string before the
first `%` is parsed (`float` when it contains a `.`, `int` otherwise),
clamped to 0..100, and re-serialized with a `%` suffix; a parse failure
is the raised `ValueError`. -/
def normalizePercentRgb (s : String) : Option String :=
  let p := percentHead s
  if p.contains '.' then
    match pyParseFloat p with
    | none => none
    | some q =>
      some (if q < 0 then "0%" else if q > 100 then "100%"
        else decimalRepr 400 q ++ "%")
  else
    match pyParseInt p with
    | none => none
    | some i =>
      some (if i < 0 then "0%" else if i > 100 then "100%"
        else toString i ++ "%")

/-- Models `normalize_percent_triplet`. -/
def normalize_percent_triplet (t : String × String × String) :
    Option (String × String × String) :=
  match normalizePercentRgb t.1, normalizePercentRgb t.2.1,
      normalizePercentRgb t.2.2 with
  | some a, some b, some c => some (a, b, c)
  | _, _, _ => none

/-! ## Name and hex conversions -/

/-- Models `name_to_hex`: lowercase the name, look it up in the dialect's
table.  `none` is the raised `ValueError` for an unknown name.  (The
unsupported-specification error cannot arise: `Spec` is the enumeration
of the four supported values.) -/
def name_to_hex (name : String) (spec : Spec) : Option String :=
  dictGet (namesToHex spec) (pyLower name)

/-- Models `hex_to_name`: normalize the hex value, look it up in the
dialect's reverse table; either failure propagates. -/
def hex_to_name (hexValue : String) (spec : Spec) : Option String :=
  match normalize_hex hexValue with
  | none => none
  | some n => dictGet (hexToNames spec) n

/-- Models `rgb_to_hex`: clip the triplet, then format each component as
two lowercase hex digits behind `#`. -/
def rgb_to_hex (t : Int × Int × Int) : String :=
  let n := normalize_integer_triplet t
  String.mk ('#' :: (hex02 n.1.toNat ++ hex02 n.2.1.toNat ++
    hex02 n.2.2.toNat))

/-- One component of `rgb_to_rgb_percent`.  The six special-cased values
come from the source's `specials` dict.  For the rest the source computes
`'{:.02f}'.format(d / 255.0 * 100)`; for every d in 0..255 that equals
the decimal of the nearest multiple of 1/100 to the exact value 20*d/51
(the exact value is never within 1/10200 of a rounding boundary while the
double-arithmetic error is below 1e-13, and no tie can occur), which the
integer formula below computes. -/
def percentComponent (d : Nat) : String :=
  if d == 255 then "100%"
  else if d == 128 then "50%"
  else if d == 64 then "25%"
  else if d == 32 then "12.5%"
  else if d == 16 then "6.25%"
  else if d == 0 then "0%"
  else
    let m := (4000 * d + 51) / 102
    toString (m / 100) ++ "." ++
      (if m % 100 < 10 then "0" else "") ++ toString (m % 100) ++ "%"

/-- Models `rgb_to_rgb_percent`. -/
def rgb_to_rgb_percent (t : Int × Int × Int) : String × String × String :=
  let n := normalize_integer_triplet t
  (percentComponent n.1.toNat, percentComponent n.2.1.toNat,
    percentComponent n.2.2.toNat)

/-! ## HTML5 color algorithms -/

structure HTML5SimpleColor where
  red : Nat
  green : Nat
  blue : Nat
deriving DecidableEq, Repr

/-- Models `html5_parse_simple_color`: exactly seven characters, a `#`
followed by six ASCII hex digits, parsed pairwise.  `none` is the raised
`ValueError`. -/
def html5_parse_simple_color (s : String) : Option HTML5SimpleColor :=
  if s.data.length == 7 then
    if s.data.head? == some '#' then
      if (s.data.drop 1).all isAsciiHexDigit then
        some ⟨parseHexNat ((s.data.drop 1).take 2),
          parseHexNat ((s.data.drop 3).take 2),
          parseHexNat ((s.data.drop 5).take 2)⟩
      else none
    else none
  else none

/-- Models `html5_serialize_simple_color`: `#` followed by the three
components as two-digit lowercase hex. -/
def html5_serialize_simple_color (c : HTML5SimpleColor) : String :=
  String.mk ('#' :: (hex02 c.red ++ hex02 c.green ++ hex02 c.blue))

/-- Steps 7 to 11 of the legacy algorithm: replace non-BMP characters by
`00`, truncate to 128 characters, drop one leading `#`, replace non-hex
characters by `0`, and pad with `0` until the length is nonzero and a
multiple of three.  (The source guards the step-10 replacement with an
`any` test; replacing unconditionally yields the same string.) -/
def legacyPrep (inp : List Char) : List Char :=
  let s7 := inp.flatMap (fun c => if c.toNat > 65535 then ['0', '0'] else [c])
  let s8 := s7.take 128
  let s9 := if s8.head? == some '#' then s8.tail else s8
  let s10 := s9.map (fun c => if isAsciiHexDigit c then c else '0')
  s10 ++ List.replicate (if s10.length = 0 then 3 else (3 - s10.length % 3) % 3) '0'

/-- Steps 12 and 13: split into three equal components; if their length
exceeds 8, keep the last 8 characters of each. -/
def legacySplit3 (q : List Char) : Nat × List Char × List Char × List Char :=
  let len := q.length / 3
  let r := q.take len
  let g := (q.drop len).take len
  let b := q.drop (2 * len)
  if len > 8 then (8, r.drop (len - 8), g.drop (len - 8), b.drop (len - 8))
  else (len, r, g, b)

/-- Step 14: while the length exceeds two and every component starts with
`0`, drop that zero from all three. -/
def legacyTrimZeros : Nat → List Char → List Char → List Char →
    Nat × List Char × List Char × List Char
  | len + 3, r, g, b =>
    if r.head? = some '0' ∧ g.head? = some '0' ∧ b.head? = some '0' then
      legacyTrimZeros (len + 2) r.tail g.tail b.tail
    else (len + 3, r, g, b)
  | len, r, g, b => (len, r, g, b)

/-- Steps 15 to 20: truncate to the first two characters when still too
long, then parse each component as hexadecimal. -/
def legacyFinal (len : Nat) (r g b : List Char) : HTML5SimpleColor :=
  if len > 2 then
    ⟨parseHexNat (r.take 2), parseHexNat (g.take 2), parseHexNat (b.take 2)⟩
  else ⟨parseHexNat r, parseHexNat g, parseHexNat b⟩

/-- Steps 7 to 20 of the legacy algorithm composed. -/
def legacyFallback (inp : List Char) : HTML5SimpleColor :=
  let s := legacySplit3 (legacyPrep inp)
  let t := legacyTrimZeros s.1 s.2.1 s.2.2.1 s.2.2.2
  legacyFinal t.1 t.2.1 t.2.2.1 t.2.2.2

/-- The guard of step 6: exactly four characters, `#` first, the other
three ASCII hex digits. -/
def legacyShorthandOK (inp : List Char) : Bool :=
  inp.length == 4 && (inp.head? == some '#') &&
    (inp.drop 1).all isAsciiHexDigit

/-- Step 6's result: each hex digit times 17. -/
def legacyShorthand (inp : List Char) : HTML5SimpleColor :=
  ⟨hexDigitVal (inp.getD 1 '0') * 17, hexDigitVal (inp.getD 2 '0') * 17,
    hexDigitVal (inp.getD 3 '0') * 17⟩

/-- Models `html5_parse_legacy_color`.  `none` is the raised `ValueError`
(empty string, `transparent`, or a failing simple-color parse of a
keyword's table value — the source propagates that exception). -/
def html5_parse_legacy_color (input : String) : Option HTML5SimpleColor :=
  if input == "" then none
  else
    let inp := pyStrip input.data
    if pyLower (String.mk inp) == "transparent" then none
    else
      match dictGet CSS3_NAMES_TO_HEX (pyLower (String.mk inp)) with
      | some keywordHex => html5_parse_simple_color keywordHex
      | none =>
        if legacyShorthandOK inp then some (legacyShorthand inp)
        else some (legacyFallback inp)

/-! ## Spec-side predicates, used to state the claims -/

/-- Shape of a valid simple-color string per the specification: exactly
seven characters, `#` first, then six ASCII hex digits. -/
def simpleShapeB (s : String) : Bool :=
  s.data.length == 7 && s.data.head? == some '#' &&
    (s.data.drop 1).all isAsciiHexDigit

/-- Shape of a normalized hexadecimal value per the specification: exactly
seven characters, `#` followed by six lowercase hexadecimal digits. -/
def isNormalizedHexB (s : String) : Bool :=
  s.data.length == 7 && s.data.head? == some '#' &&
    (s.data.drop 1).all isLowerHexDigit

/-- Removes a single newline when it is the final character. -/
def stripOneNL (cs : List Char) : List Char :=
  if cs.getLast? == some '\n' then cs.dropLast else cs

/-- The set of strings `normalize_hex` actually accepts (amended claim):
`#`, then three or six hex digits, then optionally one final newline. -/
def hexShapeNLB (s : String) : Bool :=
  match s.data with
  | [] => false
  | c :: t =>
    c == '#' &&
      (((stripOneNL t).length == 3 || (stripOneNL t).length == 6) &&
        (stripOneNL t).all isAsciiHexDigit)

/-- The normalized value the amended claim assigns to an accepted input:
drop the optional final newline, double each digit of a 3-digit group,
lowercase. -/
def hexNormOf (s : String) : String :=
  match s.data with
  | [] => ""
  | _ :: t =>
    let u := stripOneNL t
    let e := if u.length == 3 then u.flatMap (fun c => [c, c]) else u
    String.mk ('#' :: e.map asciiLowerChar)

/-- Validity of one percent-triplet component under the amended claim:
the part before the first `%` parses as a Python number (`float` when it
contains a dot, `int` otherwise). -/
def percentValidB (s : String) : Bool :=
  if (percentHead s).contains '.' then (pyParseFloat (percentHead s)).isSome
  else (pyParseInt (percentHead s)).isSome

/-- One name survives the round trip when `hex_to_name` after
`name_to_hex` yields a name the dialect's table maps to the same hex. -/
def roundTripNameOK (spec : Spec) (name : String) : Bool :=
  match name_to_hex name spec with
  | none => false
  | some h =>
    match hex_to_name h spec with
    | none => false
    | some n2 => dictGet (namesToHex spec) n2 == some h

/-- The CSS3 names on which the round trip fails. -/
def c3badNames : List String :=
  ["celadonu", "grisi", "loş grisi", "arduvazi grisi",
    "açık arduvazi grisi", "kayrak grisi"]

/-! ## Helper lemmas

Snapshots of the computed dictionaries (so decidability checks work on
literal tables), then arithmetic facts about hex digits and parsing. -/

set_option maxRecDepth 400000
set_option maxHeartbeats 4000000

/-- Snapshot of the fully-built CSS3 name table (kept as a literal so that later decidability checks need not re-run the dictionary construction). -/
theorem dictGet_nil (k : String) : dictGet [] k = none := rfl

theorem dictGet_dictUpdate (d : List (String × String)) (a v k : String) :
    dictGet (dictUpdate d a v) k = if a == k then some v else dictGet d k := by
  induction d with
  | nil =>
    by_cases hp : a = k
    · simp [dictUpdate, dictGet, List.find?, hp]
    · have hb : (a == k) = false := by simp [hp]
      simp [dictUpdate, dictGet, List.find?, hb]
  | cons p d ih =>
    by_cases hpk : p.1 = a
    · rw [show dictUpdate (p :: d) a v = (a, v) :: d from by
        simp [dictUpdate, hpk]]
      by_cases hk : a = k
      · simp [dictGet, List.find?, hk]
      · have h1 : (a == k) = false := by simp [hk]
        have h2 : (p.1 == k) = false := by simp [hpk, hk]
        simp [dictGet, List.find?, h1, h2]
    · rw [show dictUpdate (p :: d) a v = p :: dictUpdate d a v from by
        simp [dictUpdate, hpk]]
      by_cases hptk : p.1 = k
      · have h1 : (a == k) = false := by
          simp only [beq_eq_false_iff_ne, ne_eq]
          intro hak
          exact hpk (hptk.trans hak.symm)
        simp [dictGet, List.find?, hptk, h1]
      · have h2 : (p.1 == k) = false := by simp [hptk]
        simp only [dictGet, List.find?, h2]
        exact ih

theorem lastVal_nil (k : String) : lastVal [] k = none := rfl

theorem dictGet_foldl_update (ps : List (String × String)) :
    ∀ (d : List (String × String)) (k : String),
    dictGet (ps.foldl (fun d p => dictUpdate d p.1 p.2) d) k =
      (lastVal ps k).or (dictGet d k) := by
  induction ps with
  | nil => intro d k; simp [lastVal]
  | cons p ps ih =>
    intro d k
    rw [List.foldl_cons, ih (dictUpdate d p.1 p.2) k, dictGet_dictUpdate]
    unfold lastVal
    by_cases hpk : p.1 = k
    · rw [List.filter_cons_of_pos (by simp [hpk])]
      cases hfl : ps.filter (fun p => p.1 == k) with
      | nil =>
        simp [hpk, Option.or]
      | cons q rest =>
        cases hgl : (q :: rest).getLast? with
        | none => simp [List.getLast?_eq_none_iff] at hgl
        | some w =>
          have hcons : (p :: q :: rest).getLast? = (q :: rest).getLast? := rfl
          rw [hcons, hgl]
          simp [hpk, Option.or]
    · rw [List.filter_cons_of_neg (by simp [hpk])]
      have hb : (p.1 == k) = false := by simp [hpk]
      simp [hb]


theorem dictGet_dictOfPairs (ps : List (String × String)) (k : String) :
    dictGet (dictOfPairs ps) k = lastVal ps k := by
  unfold dictOfPairs
  rw [dictGet_foldl_update]
  rw [show dictGet [] k = none from rfl]
  cases lastVal ps k <;> rfl

/-- The one place the dictionary construction is actually executed: the
CSS3 dict built from the raw pairs equals its transcribed final form. -/
theorem css3_names_snapshot : CSS3_NAMES_TO_HEX = CSS3_FINAL := by
  rfl

/-- Lookup in the CSS3 reverse table as a scan: the seven gray overrides
(checked last-update-first), then the reversed final dictionary. -/
theorem css3_rev_get (h : String) :
    dictGet CSS3_HEX_TO_NAMES h =
      if "#708090" == h then some "slategray"
      else if "#778899" == h then some "lightslategray"
      else if "#d3d3d3" == h then some "lightgray"
      else if "#808080" == h then some "gray"
      else if "#696969" == h then some "dimgray"
      else if "#2f4f4f" == h then some "darkslategray"
      else if "#a9a9a9" == h then some "darkgray"
      else lastVal (CSS3_FINAL.map (fun p => (p.2, p.1))) h := by
  unfold CSS3_HEX_TO_NAMES reversedict
  rw [dictGet_dictUpdate, dictGet_dictUpdate, dictGet_dictUpdate,
    dictGet_dictUpdate, dictGet_dictUpdate, dictGet_dictUpdate,
    dictGet_dictUpdate, dictGet_dictOfPairs, css3_names_snapshot]

theorem hexDigitVal_lt (c : Char) : hexDigitVal c < 16 := by
  unfold hexDigitVal
  split
  · omega
  · split
    · omega
    · split
      · omega
      · omega

theorem parseHexNat_foldl_lt (cs : List Char) :
    ∀ a : Nat, cs.foldl (fun a c => 16 * a + hexDigitVal c) a <
      16 ^ cs.length * (a + 1) := by
  induction cs with
  | nil => intro a; simpa using Nat.lt_succ_self a
  | cons c cs ih =>
    intro a
    have h1 := ih (16 * a + hexDigitVal c)
    have h2 : 16 ^ cs.length * (16 * a + hexDigitVal c + 1) ≤
        16 ^ cs.length * (16 * (a + 1)) := by
      have := hexDigitVal_lt c
      exact Nat.mul_le_mul_left _ (by omega)
    calc (c :: cs).foldl (fun a c => 16 * a + hexDigitVal c) a
        = cs.foldl (fun a c => 16 * a + hexDigitVal c)
            (16 * a + hexDigitVal c) := by simp [List.foldl]
      _ < 16 ^ cs.length * (16 * a + hexDigitVal c + 1) := h1
      _ ≤ 16 ^ cs.length * (16 * (a + 1)) := h2
      _ = 16 ^ (c :: cs).length * (a + 1) := by
          simp [List.length_cons, Nat.pow_succ]
          ring

theorem parseHexNat_le255 (cs : List Char) (h : cs.length ≤ 2) :
    parseHexNat cs ≤ 255 := by
  have h1 := parseHexNat_foldl_lt cs 0
  have h2 : (16 : Nat) ^ cs.length ≤ 16 ^ 2 :=
    Nat.pow_le_pow_right (by omega) h
  unfold parseHexNat
  omega

theorem isLowerHex_isAsciiHex (c : Char)
    (h : isLowerHexDigit c = true) : isAsciiHexDigit c = true := by
  unfold isLowerHexDigit at h
  unfold isAsciiHexDigit
  simp only [Bool.or_eq_true, Bool.and_eq_true, decide_eq_true_eq] at h ⊢
  omega

theorem toHexDigit_hexDigitVal (c : Char)
    (h : isLowerHexDigit c = true) : toHexDigit (hexDigitVal c) = c := by
  unfold isLowerHexDigit at h
  simp only [Bool.or_eq_true, Bool.and_eq_true, decide_eq_true_eq] at h
  unfold hexDigitVal toHexDigit
  split
  · rename_i h1
    rw [if_pos (by omega)]
    have e : 48 + (c.toNat - 48) = c.toNat := by omega
    rw [e, Char.ofNat_toNat]
  · split
    · rename_i h1 h2
      rw [if_neg (by omega)]
      have e : 87 + (c.toNat - 87) = c.toNat := by omega
      rw [e, Char.ofNat_toNat]
    · split
      · rename_i h1 h2 h3
        omega
      · rename_i h1 h2 h3
        omega

theorem natHexAux_small (fuel n : Nat) (h : n < 16) :
    natHexAux fuel n = [toHexDigit n] := by
  cases fuel with
  | zero => rfl
  | succ fuel => simp [natHexAux, h]

theorem natHex_small (n : Nat) (h : n < 16) : natHex n = [toHexDigit n] :=
  natHexAux_small n n h

theorem natHex_two_digits (n : Nat) (h16 : 16 ≤ n) (h256 : n < 256) :
    natHex n = [toHexDigit (n / 16), toHexDigit (n % 16)] := by
  unfold natHex
  obtain ⟨m, rfl⟩ : ∃ m, n = m + 1 := ⟨n - 1, by omega⟩
  simp only [natHexAux, if_neg (by omega : ¬ m + 1 < 16)]
  rw [natHexAux_small m ((m + 1) / 16) (by omega)]
  rfl

theorem hex02_pair (v1 v2 : Nat) (h1 : v1 < 16) (h2 : v2 < 16) :
    hex02 (16 * v1 + v2) = [toHexDigit v1, toHexDigit v2] := by
  rcases Nat.eq_zero_or_pos v1 with hz | hp
  · subst hz
    unfold hex02
    rw [natHex_small (16 * 0 + v2) (by omega)]
    have hv : 16 * 0 + v2 = v2 := by omega
    rw [hv]
    have : toHexDigit 0 = '0' := by decide
    simp [this]
  · unfold hex02
    have hge : 16 ≤ 16 * v1 + v2 := by omega
    have hlt : 16 * v1 + v2 < 256 := by omega
    rw [natHex_two_digits _ hge hlt]
    have hdiv : (16 * v1 + v2) / 16 = v1 := by omega
    have hmod : (16 * v1 + v2) % 16 = v2 := by omega
    rw [hdiv, hmod]
    simp

theorem parseHexNat_pair (c1 c2 : Char) :
    parseHexNat [c1, c2] = 16 * hexDigitVal c1 + hexDigitVal c2 := by
  simp [parseHexNat, List.foldl]

theorem hex02_parse_pair (c1 c2 : Char) (h1 : isLowerHexDigit c1 = true)
    (h2 : isLowerHexDigit c2 = true) :
    hex02 (parseHexNat [c1, c2]) = [c1, c2] := by
  rw [parseHexNat_pair,
    hex02_pair _ _ (hexDigitVal_lt c1) (hexDigitVal_lt c2),
    toHexDigit_hexDigitVal c1 h1, toHexDigit_hexDigitVal c2 h2]

/-! ## Simple-color parse and serialize (claim C9 support) -/

theorem list_len7 {α : Type} (l : List α) (h : l.length = 7) :
    ∃ a b c d e f g, l = [a, b, c, d, e, f, g] := by
  rcases l with _ | ⟨a, l⟩
  · simp at h
  rcases l with _ | ⟨b, l⟩
  · simp at h
  rcases l with _ | ⟨c, l⟩
  · simp at h
  rcases l with _ | ⟨d, l⟩
  · simp at h
  rcases l with _ | ⟨e, l⟩
  · simp at h
  rcases l with _ | ⟨f, l⟩
  · simp at h
  rcases l with _ | ⟨g, l⟩
  · simp at h
  rcases l with _ | ⟨x, l⟩
  · exact ⟨a, b, c, d, e, f, g, rfl⟩
  · simp at h

theorem parse_simple_isSome (s : String) :
    (html5_parse_simple_color s).isSome = simpleShapeB s := by
  unfold html5_parse_simple_color simpleShapeB
  cases hA : (s.data.length == 7) <;>
    cases hB : (s.data.head? == some '#') <;>
    cases hC : ((s.data.drop 1).all isAsciiHexDigit) <;>
    simp [hA, hB, hC]

theorem parse_simple_roundtrip (s : String) (h : isNormalizedHexB s = true) :
    (html5_parse_simple_color s).map html5_serialize_simple_color = some s := by
  unfold isNormalizedHexB at h
  simp only [Bool.and_eq_true, beq_iff_eq, Nat.beq_eq] at h
  obtain ⟨⟨h7, hh⟩, hall⟩ := h
  obtain ⟨l⟩ := s
  simp only [String.data] at h7 hh hall ⊢
  obtain ⟨a, b, c, d, e, f, g, rfl⟩ := list_len7 l h7
  simp only [List.head?] at hh
  injection hh with hh
  subst hh
  simp only [List.drop, List.all_cons, List.all_nil, Bool.and_eq_true,
    Bool.and_true] at hall
  obtain ⟨hb, hc, hd, he, hf, hg⟩ := hall
  unfold html5_parse_simple_color
  simp only [String.data, List.length_cons, List.length_nil, List.head?,
    List.drop, List.take, List.all_cons, List.all_nil,
    isLowerHex_isAsciiHex _ hb, isLowerHex_isAsciiHex _ hc,
    isLowerHex_isAsciiHex _ hd, isLowerHex_isAsciiHex _ he,
    isLowerHex_isAsciiHex _ hf, isLowerHex_isAsciiHex _ hg]
  norm_num
  unfold html5_serialize_simple_color
  rw [hex02_parse_pair b c hb hc, hex02_parse_pair d e hd he,
    hex02_parse_pair f g hf hg]
  rfl

theorem parse_simple_bound (s : String) (c : HTML5SimpleColor)
    (h : html5_parse_simple_color s = some c) :
    c.red ≤ 255 ∧ c.green ≤ 255 ∧ c.blue ≤ 255 := by
  unfold html5_parse_simple_color at h
  split at h
  · split at h
    · split at h
      · simp only [Option.some.injEq] at h
        subst h
        refine ⟨?_, ?_, ?_⟩ <;>
          exact parseHexNat_le255 _ (by simp [List.length_take])
      · exact absurd h (by simp)
    · exact absurd h (by simp)
  · exact absurd h (by simp)

/-! ## Legacy-color bounds (claim C10 support) -/

theorem pad_len (l : List Char) :
    (l ++ List.replicate (if l.length = 0 then 3 else (3 - l.length % 3) % 3)
      '0').length % 3 = 0 ∧
    0 < (l ++ List.replicate (if l.length = 0 then 3
      else (3 - l.length % 3) % 3) '0').length := by
  simp only [List.length_append, List.length_replicate]
  split <;> omega

theorem legacyPrep_len (cs : List Char) :
    (legacyPrep cs).length % 3 = 0 ∧ 0 < (legacyPrep cs).length := by
  unfold legacyPrep
  exact pad_len _

theorem legacySplit3_lens (q : List Char) (h3 : q.length % 3 = 0)
    (h0 : 0 < q.length) :
    ((legacySplit3 q).2.1).length = (legacySplit3 q).1 ∧
    ((legacySplit3 q).2.2.1).length = (legacySplit3 q).1 ∧
    ((legacySplit3 q).2.2.2).length = (legacySplit3 q).1 := by
  simp only [legacySplit3]
  split
  · simp only [List.length_drop, List.length_take]
    omega
  · simp only [List.length_take, List.length_drop]
    omega

theorem legacyTrimZeros_lens : ∀ (len : Nat) (r g b : List Char),
    r.length = len → g.length = len → b.length = len →
    ((legacyTrimZeros len r g b).2.1).length =
      (legacyTrimZeros len r g b).1 ∧
    ((legacyTrimZeros len r g b).2.2.1).length =
      (legacyTrimZeros len r g b).1 ∧
    ((legacyTrimZeros len r g b).2.2.2).length =
      (legacyTrimZeros len r g b).1 := by
  intro len
  induction len using Nat.strong_induction_on with
  | _ len ih =>
    intro r g b hr hg hb
    rcases len with _ | _ | _ | k
    · rw [show legacyTrimZeros 0 r g b = (0, r, g, b) from rfl]
      exact ⟨hr, hg, hb⟩
    · rw [show legacyTrimZeros 1 r g b = (1, r, g, b) from rfl]
      exact ⟨hr, hg, hb⟩
    · rw [show legacyTrimZeros 2 r g b = (2, r, g, b) from rfl]
      exact ⟨hr, hg, hb⟩
    · rw [show legacyTrimZeros (k + 3) r g b =
        (if r.head? = some '0' ∧ g.head? = some '0' ∧ b.head? = some '0'
          then legacyTrimZeros (k + 2) r.tail g.tail b.tail
          else (k + 3, r, g, b)) from rfl]
      split
      · exact ih (k + 2) (by omega) r.tail g.tail b.tail
          (by simp [List.length_tail, hr]) (by simp [List.length_tail, hg])
          (by simp [List.length_tail, hb])
      · exact ⟨hr, hg, hb⟩

theorem legacyFinal_bound (len : Nat) (r g b : List Char)
    (hr : r.length = len) (hg : g.length = len) (hb : b.length = len) :
    (legacyFinal len r g b).red ≤ 255 ∧ (legacyFinal len r g b).green ≤ 255 ∧
    (legacyFinal len r g b).blue ≤ 255 := by
  unfold legacyFinal
  split
  · refine ⟨?_, ?_, ?_⟩ <;>
      exact parseHexNat_le255 _ (by simp [List.length_take])
  · rename_i hlen
    refine ⟨?_, ?_, ?_⟩ <;> exact parseHexNat_le255 _ (by omega)

theorem legacyFallback_bound (inp : List Char) :
    (legacyFallback inp).red ≤ 255 ∧ (legacyFallback inp).green ≤ 255 ∧
    (legacyFallback inp).blue ≤ 255 := by
  obtain ⟨h3, h0⟩ := legacyPrep_len inp
  obtain ⟨hr, hg, hb⟩ := legacySplit3_lens _ h3 h0
  obtain ⟨hr2, hg2, hb2⟩ :=
    legacyTrimZeros_lens (legacySplit3 (legacyPrep inp)).1
      (legacySplit3 (legacyPrep inp)).2.1
      (legacySplit3 (legacyPrep inp)).2.2.1
      (legacySplit3 (legacyPrep inp)).2.2.2 hr hg hb
  exact legacyFinal_bound _ _ _ _ hr2 hg2 hb2

/-! ## Hex normalization characterization (claim C5 support) -/

theorem all_hex_getLast_ne_newline (t : List Char)
    (hall : t.all isAsciiHexDigit = true) :
    (t.getLast? == some '\n') = false := by
  cases hl : t.getLast? with
  | none => rfl
  | some c =>
    have hc : c ∈ t := List.mem_of_mem_getLast? (by rw [hl]; rfl)
    have hhex := List.all_eq_true.mp hall c hc
    cases hnc : (some c == some '\n') with
    | false => rfl
    | true =>
      exfalso
      simp only [beq_iff_eq, Option.some.injEq] at hnc
      subst hnc
      simp [isAsciiHexDigit] at hhex

theorem pyLowerCharL_hex (c : Char) (h : isAsciiHexDigit c = true) :
    pyLowerCharL c = [asciiLowerChar c] := by
  unfold isAsciiHexDigit at h
  simp only [Bool.or_eq_true, Bool.and_eq_true, decide_eq_true_eq] at h
  unfold pyLowerCharL asciiLowerChar
  split
  · rfl
  · rename_i h1
    have hle : c.toNat ≤ 102 := by omega
    rw [if_neg (by rintro rfl; exact absurd hle (by decide))]
    rw [if_neg (by rintro rfl; exact absurd hle (by decide))]
    rw [if_neg (by rintro rfl; exact absurd hle (by decide))]
    rw [if_neg (by rintro rfl; exact absurd hle (by decide))]
    rw [if_neg (by rintro rfl; exact absurd hle (by decide))]
    rw [if_neg (by rintro rfl; exact absurd hle (by decide))]

theorem pyLower_hex_map (cs : List Char)
    (hall : cs.all isAsciiHexDigit = true) :
    (pyLower (String.mk cs)).data = cs.map asciiLowerChar := by
  unfold pyLower
  simp only [String.data]
  induction cs with
  | nil => rfl
  | cons c cs ih =>
    simp only [List.all_cons, Bool.and_eq_true] at hall
    rw [List.flatMap_cons, List.map_cons, pyLowerCharL_hex c hall.1,
      ih hall.2]
    rfl

theorem all_flatMap_double (u : List Char) (p : Char → Bool) :
    (u.flatMap (fun c => [c, c])).all p = u.all p := by
  induction u with
  | nil => rfl
  | cons c u ih =>
    rw [List.flatMap_cons, List.all_append, ih]
    simp [List.all_cons, Bool.and_assoc, Bool.and_self]

theorem stripOneNL_pos (cs : List Char)
    (h : (cs.getLast? == some '\n') = true) :
    stripOneNL cs = cs.dropLast := by
  unfold stripOneNL
  rw [h]
  simp

theorem stripOneNL_neg (cs : List Char)
    (h : (cs.getLast? == some '\n') = false) :
    stripOneNL cs = cs := by
  unfold stripOneNL
  rw [h]
  simp

theorem normOutput_eq (u : List Char) (P : Prop) [Decidable P]
    (hall : u.all isAsciiHexDigit = true) :
    String.mk ('#' :: (pyLower (String.mk (if P
      then u.flatMap (fun c => [c, c]) else u))).data) =
    String.mk ('#' :: (if P
      then u.flatMap (fun c => [c, c]) else u).map asciiLowerChar) := by
  congr 1
  congr 1
  rw [pyLower_hex_map]
  split
  · rw [all_flatMap_double]
    exact hall
  · exact hall

theorem normalize_hex_amended_eq (s : String) :
    normalize_hex s = if hexShapeNLB s then some (hexNormOf s) else none := by
  obtain ⟨l⟩ := s
  unfold normalize_hex matchHexColor hexShapeNLB hexNormOf
  rcases l with _ | ⟨c, t⟩
  · rfl
  · simp only [String.data]
    by_cases hc : c = '#'
    · subst hc
      rw [if_pos rfl, show (('#' : Char) == '#') = true from rfl]
      simp only [Bool.true_and]
      cases hNL : (t.getLast? == some '\n') with
      | false =>
        rw [stripOneNL_neg t hNL]
        cases hA : ((t.length == 3 || t.length == 6) &&
            t.all isAsciiHexDigit) with
        | false => simp
        | true =>
          simp only [Bool.and_eq_true] at hA
          simp
          exact normOutput_eq t _ hA.2
      | true =>
        rw [stripOneNL_pos t hNL]
        have hallf : t.all isAsciiHexDigit = false := by
          cases hf : t.all isAsciiHexDigit with
          | false => rfl
          | true => rw [all_hex_getLast_ne_newline t hf] at hNL; cases hNL
        rw [if_neg (by simp [hallf])]
        cases hB : ((t.dropLast.length == 3 || t.dropLast.length == 6) &&
            t.dropLast.all isAsciiHexDigit) with
        | false => simp
        | true =>
          simp only [Bool.and_eq_true] at hB
          simp
          exact normOutput_eq t.dropLast _ hB.2
    · rw [if_neg hc]
      have hcb : (c == '#') = false := by
        cases h : (c == '#') with
        | false => rfl
        | true => exact absurd (by simpa using h) hc
      simp [hcb]

/-! ## Name lookup and percent support (claims C6 and C7) -/

theorem dictGet_of_mem (l : List (String × String)) (k v : String)
    (hn : (l.map Prod.fst).Nodup) (hm : (k, v) ∈ l) : dictGet l k = some v := by
  induction l with
  | nil => cases hm
  | cons p l ih =>
    simp only [List.map_cons, List.nodup_cons] at hn
    rcases List.mem_cons.mp hm with heq | htail
    · subst heq
      unfold dictGet
      rw [List.find?_cons_of_pos _ (by simp)]
      rfl
    · have hk : (p.1 == k) = false := by
        cases hb : (p.1 == k) with
        | false => rfl
        | true =>
          exfalso
          have hkk : p.1 = k := by simpa using hb
          exact hn.1 (hkk ▸ List.mem_map.mpr ⟨(k, v), htail, rfl⟩)
      unfold dictGet
      rw [List.find?_cons_of_neg _ (by simp [hk])]
      exact ih hn.2 htail

theorem tables_keys_nodup (spec : Spec) :
    ((namesToHex spec).map Prod.fst).Nodup := by
  cases spec
  · decide
  · decide
  · decide
  · simp only [namesToHex, css3_names_snapshot]
    decide

theorem tables_keys_lower (spec : Spec) :
    ((namesToHex spec).all (fun p => pyLower p.1 == p.1)) = true := by
  cases spec
  · decide
  · decide
  · decide
  · simp only [namesToHex, css3_names_snapshot]
    decide

theorem normalizePercentRgb_isSome (s : String) :
    (normalizePercentRgb s).isSome = percentValidB s := by
  simp only [normalizePercentRgb, percentValidB]
  split
  · cases h : pyParseFloat (percentHead s) <;> simp [h]
  · cases h : pyParseInt (percentHead s) <;> simp [h]

theorem normalizePercentRgb_int (s : String) (i : Int)
    (hdot : (percentHead s).contains '.' = false)
    (hint : pyParseInt (percentHead s) = some i) :
    normalizePercentRgb s = some (if i < 0 then "0%"
      else if i > 100 then "100%" else toString i ++ "%") := by
  simp only [normalizePercentRgb]
  rw [hdot, hint]
  simp

theorem normalize_percent_triplet_isSome (a b c : String) :
    (normalize_percent_triplet (a, b, c)).isSome =
      (percentValidB a && percentValidB b && percentValidB c) := by
  cases h1 : normalizePercentRgb a <;> cases h2 : normalizePercentRgb b <;>
    cases h3 : normalizePercentRgb c <;>
    simp [normalize_percent_triplet, h1, h2, h3,
      ← normalizePercentRgb_isSome]

/-! ## The claims -/

/-- Claim C1 (code-bug evidence).  The claim says the legacy parser
returns a SimpleColor for every non-empty input whose stripped form is
not "transparent"; the code instead raises for the table keyword
"celadonu", because the CSS3 table maps it to "#acelaf" and the step-5
simple-color parse of that value fails on the non-hex letter ell. -/
theorem c1_legacy_celadonu_error :
    html5_parse_legacy_color "celadonu" = none ∧
    dictGet CSS3_NAMES_TO_HEX "celadonu" = some "#acelaf" ∧
    html5_parse_simple_color "#acelaf" = none := by
  refine ⟨?_, ?_, by decide⟩
  · simp only [html5_parse_legacy_color, css3_names_snapshot]
    decide
  · simp only [css3_names_snapshot]
    decide

/-- Claim C2 (code-bug evidence).  The claim says every hex value
returned by a conversion is `#` plus six lowercase hex digits; the code
returns "#acelaf" for `name_to_hex("celadonu", CSS3)`, and that string is
not six hex digits (its fifth character is the letter ell). -/
theorem c2_name_to_hex_celadonu_not_hex :
    name_to_hex "celadonu" Spec.css3 = some "#acelaf" ∧
    isNormalizedHexB "#acelaf" = false := by
  constructor
  · simp only [name_to_hex, namesToHex, css3_names_snapshot]
    decide
  · decide

/-- Claim C3 (counterexample).  The round trip fails on the CSS3 name
"loş grisi": its hex "#696969" reverse-maps to the override spelling
"dimgray", which is not a key of the CSS3 name table. -/
theorem c3_counterexample :
    name_to_hex "loş grisi" Spec.css3 = some "#696969" ∧
    hex_to_name "#696969" Spec.css3 = some "dimgray" ∧
    dictGet CSS3_NAMES_TO_HEX "dimgray" = none := by
  refine ⟨?_, ?_, ?_⟩
  · simp only [name_to_hex, namesToHex, css3_names_snapshot]
    decide
  · simp only [hex_to_name, hexToNames, css3_rev_get]
    decide
  · simp only [css3_names_snapshot]
    decide

/-- Claim C3 (amended).  The name round trip through
`hex_to_name(name_to_hex(name, dialect), dialect)` yields a same-hex table
key for every name of the HTML4, CSS2 and CSS21 tables, and for every
CSS3 name except the six listed in `c3badNames`: for "celadonu" the trip
errors (its stored value "#acelaf" is malformed), and for the five gray
names the reverse table returns an English override spelling that is not
a key of this table. -/
theorem c3_roundtrip_amended :
    ((namesToHex Spec.html4).all
      (fun p => roundTripNameOK Spec.html4 p.1)) = true ∧
    ((namesToHex Spec.css2).all
      (fun p => roundTripNameOK Spec.css2 p.1)) = true ∧
    ((namesToHex Spec.css21).all
      (fun p => roundTripNameOK Spec.css21 p.1)) = true ∧
    ((namesToHex Spec.css3).all
      (fun p => c3badNames.contains p.1 || roundTripNameOK Spec.css3 p.1))
        = true ∧
    (c3badNames.all (fun n => (dictGet CSS3_NAMES_TO_HEX n).isSome &&
      !(roundTripNameOK Spec.css3 n))) = true ∧
    hex_to_name "#d3d3d3" Spec.css3 = some "lightgray" ∧
    dictGet CSS3_NAMES_TO_HEX "lightgray" = none ∧
    hex_to_name "#2f4f4f" Spec.css3 = some "darkslategray" ∧
    dictGet CSS3_NAMES_TO_HEX "darkslategray" = none ∧
    hex_to_name "#778899" Spec.css3 = some "lightslategray" ∧
    dictGet CSS3_NAMES_TO_HEX "lightslategray" = none ∧
    hex_to_name "#708090" Spec.css3 = some "slategray" ∧
    dictGet CSS3_NAMES_TO_HEX "slategray" = none ∧
    hex_to_name "#acelaf" Spec.css3 = none := by
  refine ⟨by decide, by decide, by decide, ?_, ?_, ?_, ?_, ?_, ?_, ?_, ?_,
    ?_, ?_, by decide⟩
  · simp only [roundTripNameOK, name_to_hex, hex_to_name, namesToHex,
      hexToNames, css3_names_snapshot, css3_rev_get]
    decide
  · simp only [roundTripNameOK, name_to_hex, hex_to_name, namesToHex,
      hexToNames, css3_names_snapshot, css3_rev_get]
    decide
  · simp only [hex_to_name, hexToNames, css3_rev_get]
    decide
  · simp only [css3_names_snapshot]
    decide
  · simp only [hex_to_name, hexToNames, css3_rev_get]
    decide
  · simp only [css3_names_snapshot]
    decide
  · simp only [hex_to_name, hexToNames, css3_rev_get]
    decide
  · simp only [css3_names_snapshot]
    decide
  · simp only [hex_to_name, hexToNames, css3_rev_get]
    decide
  · simp only [css3_names_snapshot]
    decide

/-- Claim C4 (counterexample).  The claim says `legacy_parse("red")`
takes the CSS3-keyword short-circuit and yields (255, 0, 0); in the code
"red" is not a key of the (Turkish) CSS3 table, so the input falls
through to the character-substitution path and parses to (0, 14, 13). -/
theorem c4_counterexample :
    html5_parse_legacy_color "red" = some ⟨0, 14, 13⟩ ∧
    (decide ((⟨0, 14, 13⟩ : HTML5SimpleColor) = ⟨255, 0, 0⟩)) = false := by
  constructor
  · simp only [html5_parse_legacy_color, css3_names_snapshot]
    decide
  · decide

/-- Claim C4 (amended).  The step-5 short-circuit fires for the table's
actual red entry "kırmızısı", returning the simple-color parse (255,0,0)
of its value "#ff0000"; "red" itself is not a key and instead parses
through the fallback path to (0, 14, 13). -/
theorem c4_amended :
    html5_parse_legacy_color "kırmızısı" = some ⟨255, 0, 0⟩ ∧
    dictGet CSS3_NAMES_TO_HEX "kırmızısı" = some "#ff0000" ∧
    html5_parse_simple_color "#ff0000" = some ⟨255, 0, 0⟩ ∧
    html5_parse_legacy_color "red" = some ⟨0, 14, 13⟩ ∧
    dictGet CSS3_NAMES_TO_HEX "red" = none := by
  refine ⟨?_, ?_, by decide, ?_, ?_⟩
  · simp only [html5_parse_legacy_color, css3_names_snapshot]
    decide
  · simp only [css3_names_snapshot]
    decide
  · simp only [html5_parse_legacy_color, css3_names_snapshot]
    decide
  · simp only [css3_names_snapshot]
    decide

/-- Claim C5 (counterexample).  A trailing newline is accepted: the
string "#abc" followed by a newline normalizes successfully to
"#aabbcc", though the claim says any such input must fail. -/
theorem c5_counterexample :
    "#abc\n".data.getLast? = some '\n' ∧
    normalize_hex "#abc\n" = some "#aabbcc" := by
  decide

/-- Claim C5 (amended).  `normalize_hex` succeeds exactly on `#` followed
by three or six hex digits and at most one final newline (Python's `$`
matches before a trailing newline); the three-digit form doubles each
digit and the result is lowercased with the newline dropped.  Everything
else fails with the malformed-hex error. -/
theorem c5_normalize_hex_amended :
    (∀ s : String, normalize_hex s =
      if hexShapeNLB s then some (hexNormOf s) else none) ∧
    normalize_hex "#ABC" = some "#aabbcc" ∧
    normalize_hex "#1a2B3c\n" = some "#1a2b3c" ∧
    normalize_hex "#abcd" = none ∧
    normalize_hex "abc" = none ∧
    normalize_hex "#abc " = none :=
  ⟨normalize_hex_amended_eq, by decide, by decide, by decide, by decide,
    by decide⟩

/-- Claim C6 (counterexample).  Case-insensitivity fails for the fully
uppercased spelling of a name containing the dotless i: "siyahı"
uppercases to "SIYAHI", whose Python lowercase is "siyahi", which is not
a key, so `name_to_hex` raises. -/
theorem c6_counterexample :
    pyUpper "siyahı" = "SIYAHI" ∧
    dictGet HTML4_NAMES_TO_HEX "siyahı" = some "#000000" ∧
    name_to_hex "SIYAHI" Spec.html4 = none := by
  decide

/-- Claim C6 (amended).  Name lookup lowercases its input with Python
`str.lower` and looks the result up, so every variant whose lowercased
form equals the (already lowercase) table key succeeds with the same hex
as the key itself. -/
theorem c6_case_insensitive_amended (spec : Spec) (name hexv v : String)
    (hmem : (name, hexv) ∈ namesToHex spec) (hv : pyLower v = name) :
    name_to_hex v spec = some hexv ∧ name_to_hex name spec = some hexv := by
  have hget : dictGet (namesToHex spec) name = some hexv :=
    dictGet_of_mem _ _ _ (tables_keys_nodup spec) hmem
  constructor
  · simp only [name_to_hex]
    rw [hv]
    exact hget
  · simp only [name_to_hex]
    have hlow : pyLower name = name := by
      have hone := List.all_eq_true.mp (tables_keys_lower spec)
        (name, hexv) hmem
      simpa using hone
    rw [hlow]
    exact hget

theorem c6_witness :
    pyLower "LIME" = "lime" ∧
    name_to_hex "LIME" Spec.html4 = some "#00ff00" :=
  ⟨by decide, (c6_case_insensitive_amended Spec.html4 "lime" "#00ff00"
    "LIME" (by decide) (by decide)).1⟩

/-- Claim C7 (counterexample).  A bare number with no percent sign does
not fail: all of "50", without any `%`, normalizes to "50%", though the
claim says any component not of the number-percent form must fail. -/
theorem c7_counterexample :
    ("50".data.contains '%') = false ∧
    normalize_percent_triplet ("50", "50", "50") =
      some ("50%", "50%", "50%") := by
  decide

/-- Claim C7 (amended).  A component is accepted exactly when the part
before its first `%` parses as a Python number (float when it contains a
dot, int otherwise); the `%` suffix itself is not required and text after
the first `%` is ignored.  Accepted values are clamped to 0..100 and
re-serialized with a `%` suffix; the malformed-percent error occurs only
when the numeric prefix does not parse. -/
theorem c7_percent_amended :
    (∀ a b c : String, (normalize_percent_triplet (a, b, c)).isSome =
      (percentValidB a && percentValidB b && percentValidB c)) ∧
    normalize_percent_triplet ("50", "150%", "-5%") =
      some ("50%", "100%", "0%") ∧
    normalize_percent_triplet ("12.5%", "0%", "100%") =
      some ("12.5%", "0%", "100%") ∧
    normalize_percent_triplet ("abc%", "0%", "0%") = none ∧
    (∀ (s : String) (i : Int), (percentHead s).contains '.' = false →
      pyParseInt (percentHead s) = some i →
      normalizePercentRgb s = some (if i < 0 then "0%"
        else if i > 100 then "100%" else toString i ++ "%")) :=
  ⟨normalize_percent_triplet_isSome, by decide, by decide, by decide,
    normalizePercentRgb_int⟩

theorem c7_witness : normalizePercentRgb "42" = some "42%" := by
  have h := c7_percent_amended.2.2.2.2 "42" 42 (by decide) (by decide)
  exact h.trans (by decide)

/-- Claim C8.  `rgb_to_rgb_percent` maps the special values 0, 16, 32,
64, 128, 255 through the exact table, as on the claim's two triplets, and
other values through the two-decimal `value/255*100` formula. -/
theorem c8_special_percent :
    rgb_to_rgb_percent (128, 128, 128) = ("50%", "50%", "50%") ∧
    rgb_to_rgb_percent (32, 0, 255) = ("12.5%", "0%", "100%") ∧
    rgb_to_rgb_percent (16, 64, 128) = ("6.25%", "25%", "50%") ∧
    rgb_to_rgb_percent (0, 255, 32) = ("0%", "100%", "12.5%") ∧
    rgb_to_rgb_percent (1, 51, 200) = ("0.39%", "20.00%", "78.43%") := by
  decide

/-- Claim C9.  Simple-color parsing succeeds exactly on 7-character
strings of `#` plus six ASCII hex digits, and serializing the parse of a
lowercase such string returns the string itself. -/
theorem c9_simple_color_roundtrip (s : String) :
    ((html5_parse_simple_color s).isSome = simpleShapeB s) ∧
    (isNormalizedHexB s = true →
      (html5_parse_simple_color s).map html5_serialize_simple_color =
        some s) :=
  ⟨parse_simple_isSome s, parse_simple_roundtrip s⟩

theorem c9_witness :
    isNormalizedHexB "#1a2b3c" = true ∧
    (html5_parse_simple_color "#1a2b3c").map html5_serialize_simple_color =
      some "#1a2b3c" :=
  ⟨by decide, (c9_simple_color_roundtrip "#1a2b3c").2 (by decide)⟩

/-- Claim C10.  Whenever the legacy parser returns a value, all three
components of the returned simple color lie in 0..255 (they are naturals
by construction, so only the upper bound is at issue). -/
theorem c10_legacy_components_in_range (s : String) (c : HTML5SimpleColor)
    (h : html5_parse_legacy_color s = some c) :
    c.red ≤ 255 ∧ c.green ≤ 255 ∧ c.blue ≤ 255 := by
  simp only [html5_parse_legacy_color] at h
  split at h
  · exact absurd h (by simp)
  · split at h
    · exact absurd h (by simp)
    · split at h
      · exact parse_simple_bound _ _ h
      · split at h
        · simp only [Option.some.injEq] at h
          subst h
          simp only [legacyShorthand]
          refine ⟨?_, ?_, ?_⟩ <;>
            · have hv := hexDigitVal_lt (List.getD (pyStrip s.data) 1 '0')
              have hv2 := hexDigitVal_lt (List.getD (pyStrip s.data) 2 '0')
              have hv3 := hexDigitVal_lt (List.getD (pyStrip s.data) 3 '0')
              omega
        · simp only [Option.some.injEq] at h
          subst h
          exact legacyFallback_bound _

theorem c10_witness :
    (⟨10, 11, 12⟩ : HTML5SimpleColor).red ≤ 255 ∧
    (⟨10, 11, 12⟩ : HTML5SimpleColor).green ≤ 255 ∧
    (⟨10, 11, 12⟩ : HTML5SimpleColor).blue ≤ 255 :=
  c10_legacy_components_in_range "abc" ⟨10, 11, 12⟩ (by
    simp only [html5_parse_legacy_color, css3_names_snapshot]
    decide)

end TW
